import Mathlib

/-!
Verification of the UTXO transaction validator (src/src/transaction-validator.ts)
and its variant (src/unnamed/part_000) against the design specification.

The data model and the validator are translated from the TypeScript source.
The UTXO pool manager, the signature verifier and the error-record constructor
are external collaborators whose code is not part of the provided sources;
they are modelled from the specification (sections 3 and 6): the pool is a
read-only list snapshot with a keyed lookup, the verifier is an abstract
boolean function passed as a parameter, and an error is a kind paired with a
human-readable message.
-/

namespace UTXOValidator

/-- A reference to an unspent output: origin transaction id plus output index. -/
structure UTXOId where
  txId : String
  outputIndex : Nat
  deriving DecidableEq

/-- A transaction input: a UTXO reference, a claimed owner key and a signature. -/
structure TransactionInput where
  utxoId : UTXOId
  owner : String
  signature : String
  deriving DecidableEq

/-- A transaction output: a recipient and an amount. -/
structure TransactionOutput where
  recipient : String
  amount : Int
  deriving DecidableEq

/-- A transaction: id, ordered inputs, ordered outputs, timestamp. -/
structure Transaction where
  id : String
  inputs : List TransactionInput
  outputs : List TransactionOutput
  timestamp : Nat
  deriving DecidableEq

/-- A pool entry: origin transaction id, output index, owner key, amount. -/
structure UTXO where
  txId : String
  outputIndex : Nat
  owner : String
  amount : Int
  deriving DecidableEq

/-- The closed enumeration of validation error kinds (spec section 6). -/
inductive VALIDATION_ERRORS where
  | EMPTY_INPUTS
  | EMPTY_OUTPUTS
  | DOUBLE_SPENDING
  | UTXO_NOT_FOUND
  | INVALID_SIGNATURE
  | AMOUNT_MISMATCH
  | NEGATIVE_AMOUNT
  deriving DecidableEq

/-- A validation error: kind plus human-readable message. -/
structure ValidationError where
  kind : VALIDATION_ERRORS
  message : String
  deriving DecidableEq

/-- The validator's verdict: validity flag plus the ordered error list. -/
structure ValidationResult where
  valid : Bool
  errors : List ValidationError
  deriving DecidableEq

/-- Modelled from the spec: the errors module pairs an error kind with a
human-readable message; its source file is not among the provided sources. -/
def createValidationError (code : VALIDATION_ERRORS) (message : String) : ValidationError :=
  ValidationError.mk code message

/-- Modelled from the spec: the UTXO pool manager's lookup, keyed by origin
transaction id and output index, over a read-only list snapshot of the pool;
the pool manager's source file is not among the provided sources. -/
def getUTXO (utxoPool : List UTXO) (txId : String) (outputIndex : Nat) : Option UTXO :=
  utxoPool.find? (fun utxo => utxo.txId == txId && utxo.outputIndex == outputIndex)

/-- The key string the source builds for the duplicate-reference check. -/
def utxoKey (input : TransactionInput) : String :=
  input.utxoId.txId ++ ":" ++ toString input.utxoId.outputIndex

/-- The EMPTY_INPUTS error of the source. -/
def emptyInputsError : ValidationError :=
  createValidationError VALIDATION_ERRORS.EMPTY_INPUTS "La transacción no tiene entradas"

/-- The EMPTY_OUTPUTS error of the source. -/
def emptyOutputsError : ValidationError :=
  createValidationError VALIDATION_ERRORS.EMPTY_OUTPUTS "La transacción no tiene salidas"

/-- The DOUBLE_SPENDING error the source emits for a repeated key. -/
def doubleSpendingError (input : TransactionInput) : ValidationError :=
  createValidationError VALIDATION_ERRORS.DOUBLE_SPENDING
    ("UTXO duplicado: txId=" ++ input.utxoId.txId ++
      ", outputIndex=" ++ toString input.utxoId.outputIndex)

/-- The UTXO_NOT_FOUND error the source emits for an unresolved input. -/
def utxoNotFoundError (input : TransactionInput) : ValidationError :=
  createValidationError VALIDATION_ERRORS.UTXO_NOT_FOUND
    ("UTXO no encontrado para txId=" ++ input.utxoId.txId ++
      ", outputIndex=" ++ toString input.utxoId.outputIndex)

/-- The INVALID_SIGNATURE error the source emits for a failed verification. -/
def invalidSignatureError (input : TransactionInput) : ValidationError :=
  createValidationError VALIDATION_ERRORS.INVALID_SIGNATURE
    ("Firma inválida para input de txId=" ++ input.utxoId.txId ++
      ", outputIndex=" ++ toString input.utxoId.outputIndex)

/-- The AMOUNT_MISMATCH error of the source, carrying both totals. -/
def amountMismatchError (totalInput totalOutput : Int) : ValidationError :=
  createValidationError VALIDATION_ERRORS.AMOUNT_MISMATCH
    ("Suma de entradas (" ++ toString totalInput ++
      ") no coincide con suma de salidas (" ++ toString totalOutput ++ ")")

/-- The NEGATIVE_AMOUNT error of the source, carrying amount and recipient. -/
def negativeAmountError (output : TransactionOutput) : ValidationError :=
  createValidationError VALIDATION_ERRORS.NEGATIVE_AMOUNT
    ("Output inválido con monto " ++ toString output.amount ++
      " para recipient=" ++ output.recipient)

/-- The duplicate-reference loop of the source: traverse the inputs keeping the
list of keys seen so far; a key already seen yields a DOUBLE_SPENDING error. -/
def doubleSpendErrors : List TransactionInput → List String → List ValidationError
  | [], _ => []
  | input :: rest, used =>
    (if utxoKey input ∈ used then [doubleSpendingError input] else [])
      ++ doubleSpendErrors rest (used ++ [utxoKey input])

/-- One hexadecimal digit, lowercase, as the UnicodeEscape of JSON.stringify
emits it. -/
def hexDigit (n : Nat) : Char :=
  if n < 10 then Char.ofNat (48 + n) else Char.ofNat (87 + n)

/-- The escape JSON.stringify applies to one character of a string value:
quote and backslash get a backslash prefix, the named control characters use
their short escapes, the remaining control characters a four-digit unicode
escape, and every other character stands for itself. -/
def escapeChar (c : Char) : List Char :=
  if c = '"' then ['\\', '"']
  else if c = '\\' then ['\\', '\\']
  else if c.toNat = 8 then ['\\', 'b']
  else if c = '\t' then ['\\', 't']
  else if c = '\n' then ['\\', 'n']
  else if c.toNat = 12 then ['\\', 'f']
  else if c.toNat = 13 then ['\\', 'r']
  else if c.toNat < 32 then
    ['\\', 'u', '0', '0', hexDigit (c.toNat / 16), hexDigit (c.toNat % 16)]
  else [c]

/-- Character-by-character escaping of a string value. -/
def escapeList : List Char → List Char
  | [] => []
  | c :: rest => escapeChar c ++ escapeList rest

/-- The body of a JSON string literal: every character escaped exactly as
JSON.stringify escapes it. -/
def jsonEscape (s : String) : String := String.mk (escapeList s.data)

/-- JSON string literal as JSON.stringify renders a string value: the escaped
body between quotes. -/
def jsonString (s : String) : String := "\"" ++ jsonEscape s ++ "\""

/-- The serialized form of one input inside the signing payload: utxoId with
txId and outputIndex, then owner; the signature is omitted. -/
def inputJsonForSigning (input : TransactionInput) : String :=
  "\x7b\"utxoId\":\x7b\"txId\":" ++ jsonString input.utxoId.txId ++
    ",\"outputIndex\":" ++ toString input.utxoId.outputIndex ++
    "\x7d,\"owner\":" ++ jsonString input.owner ++ "\x7d"

/-- The serialized form of one output inside the signing payload. -/
def outputJson (output : TransactionOutput) : String :=
  "\x7b\"recipient\":" ++ jsonString output.recipient ++
    ",\"amount\":" ++ toString output.amount ++ "\x7d"

/-- Comma-joining of serialized array elements, as JSON.stringify renders arrays. -/
def joinComma : List String → String
  | [] => ""
  | [s] => s
  | s :: rest => s ++ "," ++ joinComma rest

/-- The deterministic string representation of the transaction for signing
(createTransactionDataForSigning_ in the source): JSON.stringify of the object
holding id, the inputs restricted to utxoId and owner, outputs and timestamp,
in that field order. -/
def createTransactionDataForSigning_ (transaction : Transaction) : String :=
  "\x7b\"id\":" ++ jsonString transaction.id ++
    ",\"inputs\":[" ++ joinComma (transaction.inputs.map inputJsonForSigning) ++
    "],\"outputs\":[" ++ joinComma (transaction.outputs.map outputJson) ++
    "],\"timestamp\":" ++ toString transaction.timestamp ++ "\x7d"

/-- The per-input resolution loop of the source: an absent UTXO yields
UTXO_NOT_FOUND and contributes nothing to the total; a present one adds its
amount and is signature-checked against the signing payload. Returns the
accumulated input total and the errors in input order. -/
def processInputs (verify : String → String → String → Bool) (utxoPool : List UTXO)
    (transactionData : String) : List TransactionInput → Int × List ValidationError
  | [] => (0, [])
  | input :: rest =>
    let acc := processInputs verify utxoPool transactionData rest
    match getUTXO utxoPool input.utxoId.txId input.utxoId.outputIndex with
    | none => (acc.1, utxoNotFoundError input :: acc.2)
    | some utxo =>
      (utxo.amount + acc.1,
        (if verify transactionData input.signature input.owner then []
         else [invalidSignatureError input]) ++ acc.2)

/-- The output-total loop of the source. -/
def sumOutputAmounts : List TransactionOutput → Int
  | [] => 0
  | output :: rest => output.amount + sumOutputAmounts rest

/-- The output-scan loop of the source: each output with amount at most zero
yields a NEGATIVE_AMOUNT error, in output order. -/
def negativeAmountErrors (outputs : List TransactionOutput) : List ValidationError :=
  outputs.filterMap (fun output =>
    if output.amount ≤ 0 then some (negativeAmountError output) else none)

/-- validateTransaction of src/src/transaction-validator.ts: structural checks,
duplicate-reference check, per-input resolution, output total, balance check,
output scan; the errors are accumulated in exactly this order and the verdict
is valid precisely when the accumulated list is empty. The signature verifier
is an abstract parameter (spec section 6). -/
def validateTransaction (verify : String → String → String → Bool)
    (utxoPool : List UTXO) (transaction : Transaction) : ValidationResult :=
  let transactionData := createTransactionDataForSigning_ transaction
  let resolved := processInputs verify utxoPool transactionData transaction.inputs
  let totalInput := resolved.1
  let totalOutput := sumOutputAmounts transaction.outputs
  let errors :=
    (if transaction.inputs.length = 0 then [emptyInputsError] else [])
      ++ (if transaction.outputs.length = 0 then [emptyOutputsError] else [])
      ++ doubleSpendErrors transaction.inputs []
      ++ resolved.2
      ++ (if totalInput ≠ totalOutput then [amountMismatchError totalInput totalOutput] else [])
      ++ negativeAmountErrors transaction.outputs
  ValidationResult.mk (errors.length == 0) errors

/-- validateTransaction of src/unnamed/part_000: identical to the main
validator except that it has no duplicate-reference check and no output scan
for non-positive amounts. -/
def validateTransactionVariant (verify : String → String → String → Bool)
    (utxoPool : List UTXO) (transaction : Transaction) : ValidationResult :=
  let transactionData := createTransactionDataForSigning_ transaction
  let resolved := processInputs verify utxoPool transactionData transaction.inputs
  let totalInput := resolved.1
  let totalOutput := sumOutputAmounts transaction.outputs
  let errors :=
    (if transaction.inputs.length = 0 then [emptyInputsError] else [])
      ++ (if transaction.outputs.length = 0 then [emptyOutputsError] else [])
      ++ resolved.2
      ++ (if totalInput ≠ totalOutput then [amountMismatchError totalInput totalOutput] else [])
  ValidationResult.mk (errors.length == 0) errors

/-- Containment of one string in another, read on the underlying character lists. -/
def ContainsSubstr (s t : String) : Prop := List.IsInfix t.data s.data

/-- A string no character of which JSON.stringify escapes: no quote, no
backslash, no control character. Such a string serializes to itself. -/
def PlainString (s : String) : Prop :=
  ∀ c ∈ s.data, c ≠ '"' ∧ c ≠ '\\' ∧ 32 ≤ c.toNat

instance containsSubstrDecidable (s t : String) : Decidable (ContainsSubstr s t) := by
  unfold ContainsSubstr
  exact inferInstance

/-- Every occurrence of the first kind precedes every occurrence of the second
kind in the given kind list. -/
def appearsBefore (k1 k2 : VALIDATION_ERRORS) (kinds : List VALIDATION_ERRORS) : Prop :=
  ∀ i j : Fin kinds.length, kinds.get i = k1 → kinds.get j = k2 → (i : Nat) < (j : Nat)

instance appearsBeforeDecidable (k1 k2 : VALIDATION_ERRORS) (kinds : List VALIDATION_ERRORS) :
    Decidable (appearsBefore k1 k2 kinds) := by
  unfold appearsBefore
  exact inferInstance

/-- The signing payload as a pair-level chunk: same text as inputJsonForSigning,
phrased on the projection the unsigned transaction object keeps of an input. -/
def inputJsonOfPair (p : UTXOId × String) : String :=
  "\x7b\"utxoId\":\x7b\"txId\":" ++ jsonString p.1.txId ++
    ",\"outputIndex\":" ++ toString p.1.outputIndex ++
    "\x7d,\"owner\":" ++ jsonString p.2 ++ "\x7d"

/-- The fields the unsigned transaction object retains: id, per-input utxoId
and owner, outputs and timestamp; signatures are projected away. -/
def signingFields (transaction : Transaction) :
    String × List (UTXOId × String) × List TransactionOutput × Nat :=
  (transaction.id,
   transaction.inputs.map (fun input => (input.utxoId, input.owner)),
   transaction.outputs, transaction.timestamp)

/-- State-passing view of the pool lookup: the read returns the pool unchanged,
making the absence of writes explicit. -/
def getUTXOSt (utxoPool : List UTXO) (txId : String) (outputIndex : Nat) :
    Option UTXO × List UTXO :=
  (getUTXO utxoPool txId outputIndex, utxoPool)

/-- State-passing view of the per-input loop: the pool state is threaded
through every lookup and returned alongside the total and the errors. -/
def processInputsSt (verify : String → String → String → Bool) (transactionData : String) :
    List TransactionInput → List UTXO → Int × List ValidationError × List UTXO
  | [], utxoPool => (0, [], utxoPool)
  | input :: rest, utxoPool =>
    let looked := getUTXOSt utxoPool input.utxoId.txId input.utxoId.outputIndex
    match looked.1 with
    | none =>
      let acc := processInputsSt verify transactionData rest looked.2
      (acc.1, utxoNotFoundError input :: acc.2.1, acc.2.2)
    | some utxo =>
      let acc := processInputsSt verify transactionData rest looked.2
      (utxo.amount + acc.1,
        (if verify transactionData input.signature input.owner then []
         else [invalidSignatureError input]) ++ acc.2.1,
        acc.2.2)

/-- State-passing view of the validator: identical checks, with the pool state
threaded through the lookups and returned next to the verdict. -/
def validateTransactionSt (verify : String → String → String → Bool)
    (utxoPool : List UTXO) (transaction : Transaction) : ValidationResult × List UTXO :=
  let transactionData := createTransactionDataForSigning_ transaction
  let resolved := processInputsSt verify transactionData transaction.inputs utxoPool
  let totalInput := resolved.1
  let totalOutput := sumOutputAmounts transaction.outputs
  let errors :=
    (if transaction.inputs.length = 0 then [emptyInputsError] else [])
      ++ (if transaction.outputs.length = 0 then [emptyOutputsError] else [])
      ++ doubleSpendErrors transaction.inputs []
      ++ resolved.2.1
      ++ (if totalInput ≠ totalOutput then [amountMismatchError totalInput totalOutput] else [])
      ++ negativeAmountErrors transaction.outputs
  (ValidationResult.mk (errors.length == 0) errors, resolved.2.2)

/-- A verifier that accepts everything, for concrete scenarios. -/
def cVerify : String → String → String → Bool := fun _ _ _ => true

/-- The pool of the specification's scenarios: one UTXO, tx A output 0,
owner K, amount 10. -/
def cPoolA : List UTXO := [UTXO.mk "A" 0 "K" 10]

/-- First input referencing the pooled UTXO. -/
def cInput1 : TransactionInput := TransactionInput.mk (UTXOId.mk "A" 0) "K" "s1"

/-- Second input referencing the same pooled UTXO. -/
def cInput2 : TransactionInput := TransactionInput.mk (UTXOId.mk "A" 0) "K" "s2"

/-- The double-spend scenario transaction: the same UTXO referenced twice,
two outputs summing to 20. -/
def cTxC2 : Transaction :=
  Transaction.mk "t1" [cInput1, cInput2]
    [TransactionOutput.mk "R1" 12, TransactionOutput.mk "R2" 8] 1

/-- A transaction whose single input is absent from the pool and whose single
output has a negative amount. -/
def cTxC3 : Transaction :=
  Transaction.mk "t2" [TransactionInput.mk (UTXOId.mk "B" 0) "K" "s"]
    [TransactionOutput.mk "R" (-5)] 2

/-- The double-spend scenario transaction with different signatures and the
same remaining fields. -/
def cTxC8 : Transaction :=
  Transaction.mk "t1"
    [TransactionInput.mk (UTXOId.mk "A" 0) "K" "zz1",
     TransactionInput.mk (UTXOId.mk "A" 0) "K" "zz2"]
    [TransactionOutput.mk "R1" 12, TransactionOutput.mk "R2" 8] 1

/-- A transaction whose id holds a quote character, which JSON.stringify
escapes inside the signing payload. -/
def cTxC8q : Transaction := Transaction.mk "a\"b" [] [] 0

theorem mem_if_singleton {c : Prop} [Decidable c] {x e : ValidationError}
    (h : e ∈ (if c then [x] else [])) : e = x := by
  split at h
  · simpa using h
  · simp at h

theorem kind_of_mem_doubleSpendErrors (l : List TransactionInput) (used : List String)
    (e : ValidationError) (h : e ∈ doubleSpendErrors l used) :
    e.kind = VALIDATION_ERRORS.DOUBLE_SPENDING := by
  induction l generalizing used with
  | nil => simp [doubleSpendErrors] at h
  | cons input rest ih =>
    simp only [doubleSpendErrors, List.mem_append] at h
    rcases h with h | h
    · rw [mem_if_singleton h]
      rfl
    · exact ih (used ++ [utxoKey input]) h

theorem kind_of_mem_processInputs (verify : String → String → String → Bool)
    (utxoPool : List UTXO) (transactionData : String) (l : List TransactionInput)
    (e : ValidationError) (h : e ∈ (processInputs verify utxoPool transactionData l).2) :
    e.kind = VALIDATION_ERRORS.UTXO_NOT_FOUND ∨ e.kind = VALIDATION_ERRORS.INVALID_SIGNATURE := by
  induction l with
  | nil => simp [processInputs] at h
  | cons input rest ih =>
    simp only [processInputs] at h
    split at h
    · rcases List.mem_cons.mp h with h | h
      · left
        rw [h]
        rfl
      · exact ih h
    · rcases List.mem_append.mp h with h | h
      · split at h
        · simp at h
        · right
          rw [show e = invalidSignatureError input by simpa using h]
          rfl
      · exact ih h

theorem kind_of_mem_negativeAmountErrors (outputs : List TransactionOutput)
    (e : ValidationError) (h : e ∈ negativeAmountErrors outputs) :
    e.kind = VALIDATION_ERRORS.NEGATIVE_AMOUNT := by
  simp only [negativeAmountErrors, List.mem_filterMap] at h
  obtain ⟨o, _, ho⟩ := h
  by_cases hle : o.amount ≤ 0
  · simp only [hle, if_true] at ho
    rw [← Option.some_inj.mp ho]
    rfl
  · simp [hle] at ho

theorem validateTransaction_errors (verify : String → String → String → Bool)
    (utxoPool : List UTXO) (transaction : Transaction) :
    (validateTransaction verify utxoPool transaction).errors =
      (if transaction.inputs.length = 0 then [emptyInputsError] else [])
        ++ (if transaction.outputs.length = 0 then [emptyOutputsError] else [])
        ++ doubleSpendErrors transaction.inputs []
        ++ (processInputs verify utxoPool (createTransactionDataForSigning_ transaction)
              transaction.inputs).2
        ++ (if (processInputs verify utxoPool (createTransactionDataForSigning_ transaction)
                  transaction.inputs).1 ≠ sumOutputAmounts transaction.outputs
            then [amountMismatchError
                    (processInputs verify utxoPool (createTransactionDataForSigning_ transaction)
                      transaction.inputs).1 (sumOutputAmounts transaction.outputs)]
            else [])
        ++ negativeAmountErrors transaction.outputs := rfl

theorem validateTransaction_valid (verify : String → String → String → Bool)
    (utxoPool : List UTXO) (transaction : Transaction) :
    (validateTransaction verify utxoPool transaction).valid
      = ((validateTransaction verify utxoPool transaction).errors.length == 0) := rfl

theorem validateTransactionVariant_errors (verify : String → String → String → Bool)
    (utxoPool : List UTXO) (transaction : Transaction) :
    (validateTransactionVariant verify utxoPool transaction).errors =
      (if transaction.inputs.length = 0 then [emptyInputsError] else [])
        ++ (if transaction.outputs.length = 0 then [emptyOutputsError] else [])
        ++ (processInputs verify utxoPool (createTransactionDataForSigning_ transaction)
              transaction.inputs).2
        ++ (if (processInputs verify utxoPool (createTransactionDataForSigning_ transaction)
                  transaction.inputs).1 ≠ sumOutputAmounts transaction.outputs
            then [amountMismatchError
                    (processInputs verify utxoPool (createTransactionDataForSigning_ transaction)
                      transaction.inputs).1 (sumOutputAmounts transaction.outputs)]
            else []) := rfl

theorem validateTransactionVariant_valid (verify : String → String → String → Bool)
    (utxoPool : List UTXO) (transaction : Transaction) :
    (validateTransactionVariant verify utxoPool transaction).valid
      = ((validateTransactionVariant verify utxoPool transaction).errors.length == 0) := rfl

/-- C1: for every transaction and pool the verdict is valid exactly when the
accumulated error list is empty; the result always carries the full accumulated
error list, of which the validity flag is a pure function. -/
theorem c1_valid_iff_no_errors (verify : String → String → String → Bool)
    (utxoPool : List UTXO) (transaction : Transaction) :
    ((validateTransaction verify utxoPool transaction).valid = true ↔
        (validateTransaction verify utxoPool transaction).errors = [])
    ∧ (validateTransaction verify utxoPool transaction).valid
        = ((validateTransaction verify utxoPool transaction).errors.length == 0) := by
  refine ⟨?_, validateTransaction_valid verify utxoPool transaction⟩
  rw [validateTransaction_valid]
  simp [List.length_eq_zero]

theorem containsSubstr_refl (s : String) : ContainsSubstr s s :=
  ⟨[], [], by simp⟩

theorem containsSubstr_append_left (s t x : String) (h : ContainsSubstr s x) :
    ContainsSubstr (s ++ t) x := by
  obtain ⟨u, v, huv⟩ := h
  exact ⟨u, v ++ t.data, by rw [String.data_append, ← huv]; simp [List.append_assoc]⟩

theorem containsSubstr_append_right (s t x : String) (h : ContainsSubstr t x) :
    ContainsSubstr (s ++ t) x := by
  obtain ⟨u, v, huv⟩ := h
  exact ⟨s.data ++ u, v, by rw [String.data_append, ← huv]; simp [List.append_assoc]⟩

theorem containsSubstr_trans (s t x : String) (h1 : ContainsSubstr s t)
    (h2 : ContainsSubstr t x) : ContainsSubstr s x :=
  List.IsInfix.trans h2 h1

theorem containsSubstr_of_parts (s1 t s2 : String) : ContainsSubstr (s1 ++ t ++ s2) t :=
  containsSubstr_append_left _ _ _ (containsSubstr_append_right _ _ _ (containsSubstr_refl t))

theorem appearsBefore_of_split (k1 k2 : VALIDATION_ERRORS) (a b : List VALIDATION_ERRORS)
    (ha : k2 ∉ a) (hb : k1 ∉ b) : appearsBefore k1 k2 (a ++ b) := by
  intro i j hi hj
  rw [List.get_eq_getElem] at hi hj
  have hilen : (i : Nat) < a.length := by
    by_contra hc
    push_neg at hc
    have hlt : (i : Nat) - a.length < b.length := by
      have hb2 := i.isLt
      simp only [List.length_append] at hb2
      omega
    rw [List.getElem_append_right hc] at hi
    exact hb (hi ▸ List.getElem_mem hlt)
  have hjlen : a.length ≤ (j : Nat) := by
    by_contra hc
    push_neg at hc
    rw [List.getElem_append_left hc] at hj
    exact ha (hj ▸ List.getElem_mem hc)
  omega

/-- C3 counterexample: on the concrete transaction cTxC3 against pool cPoolA
the error kinds are UTXO_NOT_FOUND, AMOUNT_MISMATCH, NEGATIVE_AMOUNT in that
order, so the NEGATIVE_AMOUNT entry does not precede the AMOUNT_MISMATCH entry
as the claim states. -/
theorem c3_counterexample :
    ((validateTransaction cVerify cPoolA cTxC3).errors.map ValidationError.kind
        = [VALIDATION_ERRORS.UTXO_NOT_FOUND, VALIDATION_ERRORS.AMOUNT_MISMATCH,
           VALIDATION_ERRORS.NEGATIVE_AMOUNT])
    ∧ ¬ appearsBefore VALIDATION_ERRORS.NEGATIVE_AMOUNT VALIDATION_ERRORS.AMOUNT_MISMATCH
        ((validateTransaction cVerify cPoolA cTxC3).errors.map ValidationError.kind) := by
  decide

/-- C3 (amended): errors are appended in the order the code runs its checks;
in that order the balance check precedes the output scan, so every
AMOUNT_MISMATCH entry appears in the result's error list before any
NEGATIVE_AMOUNT entry, the opposite of the claimed relative order. -/
theorem c3_amended (verify : String → String → String → Bool)
    (utxoPool : List UTXO) (transaction : Transaction) :
    appearsBefore VALIDATION_ERRORS.AMOUNT_MISMATCH VALIDATION_ERRORS.NEGATIVE_AMOUNT
      ((validateTransaction verify utxoPool transaction).errors.map ValidationError.kind) := by
  have hsplit : (validateTransaction verify utxoPool transaction).errors.map ValidationError.kind
      = (((if transaction.inputs.length = 0 then [emptyInputsError] else [])
            ++ (if transaction.outputs.length = 0 then [emptyOutputsError] else [])
            ++ doubleSpendErrors transaction.inputs []
            ++ (processInputs verify utxoPool (createTransactionDataForSigning_ transaction)
                  transaction.inputs).2
            ++ (if (processInputs verify utxoPool (createTransactionDataForSigning_ transaction)
                      transaction.inputs).1 ≠ sumOutputAmounts transaction.outputs
                then [amountMismatchError
                        (processInputs verify utxoPool
                          (createTransactionDataForSigning_ transaction) transaction.inputs).1
                        (sumOutputAmounts transaction.outputs)]
                else [])).map ValidationError.kind)
          ++ (negativeAmountErrors transaction.outputs).map ValidationError.kind := by
    rw [validateTransaction_errors]
    simp [List.map_append, List.append_assoc]
  rw [hsplit]
  apply appearsBefore_of_split
  · intro hmem
    obtain ⟨e, he, hk⟩ := List.mem_map.mp hmem
    rcases List.mem_append.mp he with he | he
    · rcases List.mem_append.mp he with he | he
      · rcases List.mem_append.mp he with he | he
        · rcases List.mem_append.mp he with he | he
          · rw [mem_if_singleton he] at hk
            exact absurd hk (by decide)
          · rw [mem_if_singleton he] at hk
            exact absurd hk (by decide)
        · rw [kind_of_mem_doubleSpendErrors _ _ _ he] at hk
          exact absurd hk (by decide)
      · rcases kind_of_mem_processInputs _ _ _ _ _ he with h | h
        · rw [h] at hk
          exact absurd hk (by decide)
        · rw [h] at hk
          exact absurd hk (by decide)
    · rw [mem_if_singleton he] at hk
      simp [amountMismatchError, createValidationError] at hk
  · intro hmem
    obtain ⟨e, he, hk⟩ := List.mem_map.mp hmem
    rw [kind_of_mem_negativeAmountErrors _ _ he] at hk
    exact absurd hk (by decide)

theorem processInputs_append (verify : String → String → String → Bool) (utxoPool : List UTXO)
    (transactionData : String) (l1 l2 : List TransactionInput) :
    processInputs verify utxoPool transactionData (l1 ++ l2)
      = ((processInputs verify utxoPool transactionData l1).1
           + (processInputs verify utxoPool transactionData l2).1,
         (processInputs verify utxoPool transactionData l1).2
           ++ (processInputs verify utxoPool transactionData l2).2) := by
  induction l1 with
  | nil => simp [processInputs]
  | cons input rest ih =>
    simp only [List.cons_append, processInputs]
    split
    · simp [ih]
    · simp [ih, add_assoc, List.append_assoc]

/-- C4: an input whose referenced UTXO is absent from the pool yields a
UTXO_NOT_FOUND error in the result, contributes nothing to the input total
the balance check consumes (the total splits as the sum over the remaining
inputs), and contributes no other error at its position, in particular no
INVALID_SIGNATURE. -/
theorem c4_utxo_not_found (verify : String → String → String → Bool)
    (utxoPool : List UTXO) (transaction : Transaction)
    (pre post : List TransactionInput) (x : TransactionInput)
    (hsplit : transaction.inputs = pre ++ (x :: post))
    (habsent : getUTXO utxoPool x.utxoId.txId x.utxoId.outputIndex = none) :
    utxoNotFoundError x ∈ (validateTransaction verify utxoPool transaction).errors
    ∧ (processInputs verify utxoPool (createTransactionDataForSigning_ transaction)
         transaction.inputs).1
        = (processInputs verify utxoPool (createTransactionDataForSigning_ transaction) pre).1
          + (processInputs verify utxoPool (createTransactionDataForSigning_ transaction) post).1
    ∧ (processInputs verify utxoPool (createTransactionDataForSigning_ transaction)
         transaction.inputs).2
        = (processInputs verify utxoPool (createTransactionDataForSigning_ transaction) pre).2
          ++ (utxoNotFoundError x
                :: (processInputs verify utxoPool (createTransactionDataForSigning_ transaction)
                      post).2) := by
  have hx : processInputs verify utxoPool (createTransactionDataForSigning_ transaction)
      (x :: post)
      = ((processInputs verify utxoPool (createTransactionDataForSigning_ transaction) post).1,
         utxoNotFoundError x
           :: (processInputs verify utxoPool (createTransactionDataForSigning_ transaction)
                 post).2) := by
    simp only [processInputs, habsent]
  have hdec := processInputs_append verify utxoPool
    (createTransactionDataForSigning_ transaction) pre (x :: post)
  rw [hx] at hdec
  refine ⟨?_, ?_, ?_⟩
  · rw [validateTransaction_errors]
    apply List.mem_append_left
    apply List.mem_append_left
    apply List.mem_append_right
    rw [hsplit, hdec]
    exact List.mem_append_right _ (List.mem_cons_self _ _)
  · rw [hsplit, hdec]
  · rw [hsplit, hdec]

/-- C4 witness: concrete instance at the transaction cTxC3, whose single input
references a UTXO absent from the pool cPoolA. -/
theorem c4_witness :
    utxoNotFoundError (TransactionInput.mk (UTXOId.mk "B" 0) "K" "s")
        ∈ (validateTransaction cVerify cPoolA cTxC3).errors
    ∧ (processInputs cVerify cPoolA (createTransactionDataForSigning_ cTxC3) cTxC3.inputs).1
        = (processInputs cVerify cPoolA (createTransactionDataForSigning_ cTxC3) []).1
          + (processInputs cVerify cPoolA (createTransactionDataForSigning_ cTxC3) []).1
    ∧ (processInputs cVerify cPoolA (createTransactionDataForSigning_ cTxC3) cTxC3.inputs).2
        = (processInputs cVerify cPoolA (createTransactionDataForSigning_ cTxC3) []).2
          ++ (utxoNotFoundError (TransactionInput.mk (UTXOId.mk "B" 0) "K" "s")
                :: (processInputs cVerify cPoolA (createTransactionDataForSigning_ cTxC3) []).2) :=
  c4_utxo_not_found cVerify cPoolA cTxC3 [] []
    (TransactionInput.mk (UTXOId.mk "B" 0) "K" "s") rfl (by decide)

theorem doubleSpendErrors_eq_nil (l : List TransactionInput) (used : List String)
    (h : ∀ x ∈ l, utxoKey x ∉ used) (hnd : (l.map utxoKey).Nodup) :
    doubleSpendErrors l used = [] := by
  induction l generalizing used with
  | nil => rfl
  | cons input rest ih =>
    have hx : utxoKey input ∉ used := h input (List.mem_cons_self input rest)
    have hnd2 : utxoKey input ∉ rest.map utxoKey ∧ (rest.map utxoKey).Nodup := by
      have h0 := hnd
      simp only [List.map_cons, List.nodup_cons] at h0
      exact h0
    simp only [doubleSpendErrors]
    rw [if_neg hx, List.nil_append]
    apply ih
    · intro y hy hmem
      rcases List.mem_append.mp hmem with hm | hm
      · exact h y (List.mem_cons_of_mem _ hy) hm
      · have heq : utxoKey y = utxoKey input := by simpa using hm
        exact hnd2.1 (heq ▸ List.mem_map_of_mem utxoKey hy)
    · exact hnd2.2

theorem doubleSpendErrors_second (mid post : List TransactionInput) (b : TransactionInput)
    (used : List String) (hb : utxoKey b ∈ used)
    (hmp : ∀ x ∈ mid ++ post, utxoKey x ∉ used ∧ utxoKey x ≠ utxoKey b)
    (hnd : ((mid ++ post).map utxoKey).Nodup) :
    doubleSpendErrors (mid ++ (b :: post)) used = [doubleSpendingError b] := by
  induction mid generalizing used with
  | nil =>
    simp only [List.nil_append, doubleSpendErrors]
    rw [if_pos hb]
    have hpost : doubleSpendErrors post (used ++ [utxoKey b]) = [] := by
      apply doubleSpendErrors_eq_nil
      · intro x hx hmem
        rcases List.mem_append.mp hmem with hm | hm
        · exact (hmp x (by simpa using hx)).1 hm
        · exact (hmp x (by simpa using hx)).2 (by simpa using hm)
      · simpa using hnd
    rw [hpost]
    simp
  | cons m ms ih =>
    have hm := hmp m (List.mem_append_left _ (List.mem_cons_self m ms))
    have hnd2 : utxoKey m ∉ ((ms ++ post).map utxoKey)
        ∧ ((ms ++ post).map utxoKey).Nodup := by
      have h0 := hnd
      simp only [List.cons_append, List.map_cons, List.nodup_cons] at h0
      exact h0
    simp only [List.cons_append, doubleSpendErrors]
    rw [if_neg hm.1, List.nil_append]
    apply ih
    · exact List.mem_append_left _ hb
    · intro x hx
      have hx2 := hmp x (List.mem_append.mpr (by
        rcases List.mem_append.mp hx with h1 | h1
        · exact Or.inl (List.mem_cons_of_mem _ h1)
        · exact Or.inr h1))
      refine ⟨?_, hx2.2⟩
      intro hmem
      rcases List.mem_append.mp hmem with h1 | h1
      · exact hx2.1 h1
      · have heq : utxoKey x = utxoKey m := by simpa using h1
        exact hnd2.1 (heq ▸ List.mem_map_of_mem utxoKey hx)
    · exact hnd2.2

theorem doubleSpendErrors_dup (pre mid post : List TransactionInput) (a b : TransactionInput)
    (used : List String) (hk : utxoKey a = utxoKey b)
    (hused : ∀ x ∈ pre ++ (mid ++ post), utxoKey x ∉ used)
    (hausd : utxoKey a ∉ used)
    (hafresh : utxoKey a ∉ (pre ++ (mid ++ post)).map utxoKey)
    (hnd : ((pre ++ (mid ++ post)).map utxoKey).Nodup) :
    doubleSpendErrors (pre ++ (a :: (mid ++ (b :: post)))) used = [doubleSpendingError b] := by
  induction pre generalizing used with
  | nil =>
    simp only [List.nil_append, doubleSpendErrors]
    rw [if_neg hausd, List.nil_append]
    apply doubleSpendErrors_second
    · exact List.mem_append_right _ (by simp [hk])
    · intro x hx
      constructor
      · intro hmem
        rcases List.mem_append.mp hmem with h1 | h1
        · exact hused x (by simpa using hx) h1
        · have heq : utxoKey x = utxoKey a := by simpa using h1
          exact hafresh (by
            rw [← heq]
            exact List.mem_map_of_mem utxoKey (by simpa using hx))
      · intro heq
        exact hafresh (by
          rw [hk, ← heq]
          exact List.mem_map_of_mem utxoKey (by simpa using hx))
    · simpa using hnd
  | cons p ps ih =>
    have hp : utxoKey p ∉ used := hused p (by simp)
    have hnd2 : utxoKey p ∉ ((ps ++ (mid ++ post)).map utxoKey)
        ∧ ((ps ++ (mid ++ post)).map utxoKey).Nodup := by
      have h0 := hnd
      simp only [List.cons_append, List.map_cons, List.nodup_cons] at h0
      exact h0
    have hafresh2 : utxoKey a ∉ (ps ++ (mid ++ post)).map utxoKey := by
      intro hmem
      exact hafresh (by
        simp only [List.cons_append, List.map_cons]
        exact List.mem_cons_of_mem _ hmem)
    simp only [List.cons_append, doubleSpendErrors]
    rw [if_neg hp, List.nil_append]
    apply ih
    · intro x hx hmem
      rcases List.mem_append.mp hmem with h1 | h1
      · exact hused x (List.mem_cons_of_mem _ hx) h1
      · have heq : utxoKey x = utxoKey p := by simpa using h1
        exact hnd2.1 (heq ▸ List.mem_map_of_mem utxoKey hx)
    · intro hmem
      rcases List.mem_append.mp hmem with h1 | h1
      · exact hausd h1
      · have heq : utxoKey a = utxoKey p := by simpa using h1
        exact hafresh (by
          simp only [List.cons_append, List.map_cons]
          rw [heq]
          exact List.mem_cons_self _ _)
    · exact hafresh2
    · exact hnd2.2

theorem filter_if_singleton_of_neg {c : Prop} [Decidable c] (x : ValidationError)
    (p : ValidationError → Bool) (hp : p x = false) :
    (if c then [x] else []).filter p = [] := by
  split
  · simp [hp]
  · rfl

theorem filter_if_singleton_of_pos {c : Prop} [Decidable c] (x : ValidationError)
    (p : ValidationError → Bool) (hp : p x = true) :
    (if c then [x] else []).filter p = (if c then [x] else []) := by
  split
  · simp [hp]
  · rfl

/-- C5: when one UTXO key occurs exactly twice among the inputs (first at the
a-occurrence, then at the b-occurrence, every other key occurring once), the
result carries exactly one DOUBLE_SPENDING error, and it is the one emitted
for the second occurrence. -/
theorem c5_double_spend_once (verify : String → String → String → Bool)
    (utxoPool : List UTXO) (transaction : Transaction)
    (pre mid post : List TransactionInput) (a b : TransactionInput)
    (hsplit : transaction.inputs = pre ++ (a :: (mid ++ (b :: post))))
    (hk : utxoKey a = utxoKey b)
    (hfresh : utxoKey a ∉ (pre ++ (mid ++ post)).map utxoKey)
    (hnd : ((pre ++ (mid ++ post)).map utxoKey).Nodup) :
    (validateTransaction verify utxoPool transaction).errors.filter
        (fun e => e.kind == VALIDATION_ERRORS.DOUBLE_SPENDING)
      = [doubleSpendingError b] := by
  have hds : doubleSpendErrors transaction.inputs [] = [doubleSpendingError b] := by
    rw [hsplit]
    exact doubleSpendErrors_dup pre mid post a b [] hk (by simp) (by simp) hfresh hnd
  rw [validateTransaction_errors, List.filter_append, List.filter_append, List.filter_append,
    List.filter_append, List.filter_append]
  rw [filter_if_singleton_of_neg _ _ (by decide), filter_if_singleton_of_neg _ _ (by decide)]
  rw [hds]
  have hpi : (processInputs verify utxoPool (createTransactionDataForSigning_ transaction)
      transaction.inputs).2.filter (fun e => e.kind == VALIDATION_ERRORS.DOUBLE_SPENDING)
      = [] := by
    rw [List.filter_eq_nil_iff]
    intro e he
    rcases kind_of_mem_processInputs _ _ _ _ _ he with h | h
    · simp [h]
    · simp [h]
  have hmm : (if (processInputs verify utxoPool (createTransactionDataForSigning_ transaction)
        transaction.inputs).1 ≠ sumOutputAmounts transaction.outputs
      then [amountMismatchError
              (processInputs verify utxoPool (createTransactionDataForSigning_ transaction)
                transaction.inputs).1 (sumOutputAmounts transaction.outputs)]
      else []).filter (fun e => e.kind == VALIDATION_ERRORS.DOUBLE_SPENDING) = [] := by
    apply filter_if_singleton_of_neg
    simp [amountMismatchError, createValidationError]
  have hneg : (negativeAmountErrors transaction.outputs).filter
      (fun e => e.kind == VALIDATION_ERRORS.DOUBLE_SPENDING) = [] := by
    rw [List.filter_eq_nil_iff]
    intro e he
    simp [kind_of_mem_negativeAmountErrors _ _ he]
  rw [hpi, hmm, hneg]
  simp [doubleSpendingError, createValidationError]

/-- C5 witness: concrete instance at cTxC2, whose two inputs reference the
same UTXO key; the single DOUBLE_SPENDING error is the one for the second
input. -/
theorem c5_witness :
    (validateTransaction cVerify cPoolA cTxC2).errors.filter
        (fun e => e.kind == VALIDATION_ERRORS.DOUBLE_SPENDING)
      = [doubleSpendingError cInput2] :=
  c5_double_spend_once cVerify cPoolA cTxC2 [] [] [] cInput1 cInput2
    rfl (by decide) (by decide) (by decide)

/-- C6: the result contains an AMOUNT_MISMATCH error exactly when the total of
the resolved input amounts differs from the output total (the filtered errors
are the singleton balance-check emission in that case and empty otherwise),
and the error message carries both totals. -/
theorem c6_amount_mismatch (verify : String → String → String → Bool)
    (utxoPool : List UTXO) (transaction : Transaction) (a b : Int) :
    ((validateTransaction verify utxoPool transaction).errors.filter
        (fun e => e.kind == VALIDATION_ERRORS.AMOUNT_MISMATCH))
      = (if (processInputs verify utxoPool (createTransactionDataForSigning_ transaction)
               transaction.inputs).1 ≠ sumOutputAmounts transaction.outputs
         then [amountMismatchError
                 (processInputs verify utxoPool (createTransactionDataForSigning_ transaction)
                    transaction.inputs).1 (sumOutputAmounts transaction.outputs)]
         else [])
    ∧ ContainsSubstr (amountMismatchError a b).message (toString a)
    ∧ ContainsSubstr (amountMismatchError a b).message (toString b) := by
  refine ⟨?_, ?_, ?_⟩
  · rw [validateTransaction_errors, List.filter_append, List.filter_append, List.filter_append,
      List.filter_append, List.filter_append]
    rw [filter_if_singleton_of_neg _ _ (by decide), filter_if_singleton_of_neg _ _ (by decide)]
    have hds : (doubleSpendErrors transaction.inputs []).filter
        (fun e => e.kind == VALIDATION_ERRORS.AMOUNT_MISMATCH) = [] := by
      rw [List.filter_eq_nil_iff]
      intro e he
      simp [kind_of_mem_doubleSpendErrors _ _ _ he]
    have hpi : (processInputs verify utxoPool (createTransactionDataForSigning_ transaction)
        transaction.inputs).2.filter (fun e => e.kind == VALIDATION_ERRORS.AMOUNT_MISMATCH)
        = [] := by
      rw [List.filter_eq_nil_iff]
      intro e he
      rcases kind_of_mem_processInputs _ _ _ _ _ he with h | h
      · simp [h]
      · simp [h]
    have hneg : (negativeAmountErrors transaction.outputs).filter
        (fun e => e.kind == VALIDATION_ERRORS.AMOUNT_MISMATCH) = [] := by
      rw [List.filter_eq_nil_iff]
      intro e he
      simp [kind_of_mem_negativeAmountErrors _ _ he]
    have hmm := filter_if_singleton_of_pos (c :=
        (processInputs verify utxoPool (createTransactionDataForSigning_ transaction)
            transaction.inputs).1 ≠ sumOutputAmounts transaction.outputs)
      (amountMismatchError
        (processInputs verify utxoPool (createTransactionDataForSigning_ transaction)
          transaction.inputs).1 (sumOutputAmounts transaction.outputs))
      (fun e => e.kind == VALIDATION_ERRORS.AMOUNT_MISMATCH)
      (by simp [amountMismatchError, createValidationError])
    rw [hds, hpi, hneg, hmm]
    simp
  · show ContainsSubstr ((amountMismatchError a b).message) (toString a)
    simp only [amountMismatchError, createValidationError]
    exact containsSubstr_append_left _ _ _ (containsSubstr_append_left _ _ _
      (containsSubstr_append_left _ _ _ (containsSubstr_append_right _ _ _
        (containsSubstr_refl _))))
  · show ContainsSubstr ((amountMismatchError a b).message) (toString b)
    simp only [amountMismatchError, createValidationError]
    exact containsSubstr_append_left _ _ _ (containsSubstr_append_right _ _ _
      (containsSubstr_refl _))

/-- C7: every output with non-positive amount yields a NEGATIVE_AMOUNT error
whose message carries that amount and its recipient; the NEGATIVE_AMOUNT
errors of the result are exactly those of the output scan, and outputs that
are all strictly positive yield none. -/
theorem c7_negative_amount (verify : String → String → String → Bool)
    (utxoPool : List UTXO) (transaction : Transaction) (output : TransactionOutput) :
    ((validateTransaction verify utxoPool transaction).errors.filter
        (fun e => e.kind == VALIDATION_ERRORS.NEGATIVE_AMOUNT))
      = negativeAmountErrors transaction.outputs
    ∧ (output ∈ transaction.outputs → output.amount ≤ 0 →
        negativeAmountError output ∈ (validateTransaction verify utxoPool transaction).errors)
    ∧ ((∀ o ∈ transaction.outputs, 0 < o.amount) →
        negativeAmountErrors transaction.outputs = [])
    ∧ ContainsSubstr (negativeAmountError output).message (toString output.amount)
    ∧ ContainsSubstr (negativeAmountError output).message output.recipient := by
  refine ⟨?_, ?_, ?_, ?_, ?_⟩
  · rw [validateTransaction_errors, List.filter_append, List.filter_append, List.filter_append,
      List.filter_append, List.filter_append]
    rw [filter_if_singleton_of_neg _ _ (by decide), filter_if_singleton_of_neg _ _ (by decide)]
    have hds : (doubleSpendErrors transaction.inputs []).filter
        (fun e => e.kind == VALIDATION_ERRORS.NEGATIVE_AMOUNT) = [] := by
      rw [List.filter_eq_nil_iff]
      intro e he
      simp [kind_of_mem_doubleSpendErrors _ _ _ he]
    have hpi : (processInputs verify utxoPool (createTransactionDataForSigning_ transaction)
        transaction.inputs).2.filter (fun e => e.kind == VALIDATION_ERRORS.NEGATIVE_AMOUNT)
        = [] := by
      rw [List.filter_eq_nil_iff]
      intro e he
      rcases kind_of_mem_processInputs _ _ _ _ _ he with h | h
      · simp [h]
      · simp [h]
    have hmm : (if (processInputs verify utxoPool (createTransactionDataForSigning_ transaction)
          transaction.inputs).1 ≠ sumOutputAmounts transaction.outputs
        then [amountMismatchError
                (processInputs verify utxoPool (createTransactionDataForSigning_ transaction)
                  transaction.inputs).1 (sumOutputAmounts transaction.outputs)]
        else []).filter (fun e => e.kind == VALIDATION_ERRORS.NEGATIVE_AMOUNT) = [] := by
      apply filter_if_singleton_of_neg
      simp [amountMismatchError, createValidationError]
    have hneg : (negativeAmountErrors transaction.outputs).filter
        (fun e => e.kind == VALIDATION_ERRORS.NEGATIVE_AMOUNT)
        = negativeAmountErrors transaction.outputs := by
      rw [List.filter_eq_self]
      intro e he
      simp [kind_of_mem_negativeAmountErrors _ _ he]
    rw [hds, hpi, hmm, hneg]
    simp
  · intro hmem hle
    rw [validateTransaction_errors]
    apply List.mem_append_right
    exact List.mem_filterMap.mpr ⟨output, hmem, by simp [hle]⟩
  · intro hpos
    rw [negativeAmountErrors, List.filterMap_eq_nil_iff]
    intro o ho
    simp [not_le.mpr (hpos o ho)]
  · show ContainsSubstr ((negativeAmountError output).message) (toString output.amount)
    simp only [negativeAmountError, createValidationError]
    exact containsSubstr_append_left _ _ _ (containsSubstr_append_left _ _ _
      (containsSubstr_append_right _ _ _ (containsSubstr_refl _)))
  · show ContainsSubstr ((negativeAmountError output).message) output.recipient
    simp only [negativeAmountError, createValidationError]
    exact containsSubstr_append_right _ _ _ (containsSubstr_refl _)

/-- C2 counterexample: in the concrete scenario (pool cPoolA holding the UTXO
of tx A, index 0, owner K, amount 10; transaction cTxC2 referencing it twice
with accepted signatures and two outputs summing to 20) the error list holds
DOUBLE_SPENDING once but no AMOUNT_MISMATCH at all: the code re-adds the
duplicated UTXO amount, making the input total 20, not 10. -/
theorem c2_counterexample :
    ((validateTransaction cVerify cPoolA cTxC2).errors.map ValidationError.kind
        = [VALIDATION_ERRORS.DOUBLE_SPENDING])
    ∧ ¬ (VALIDATION_ERRORS.AMOUNT_MISMATCH ∈
          (validateTransaction cVerify cPoolA cTxC2).errors.map ValidationError.kind) := by
  decide

/-- C2 (amended): in the scenario of the claim (pool cPoolA; a transaction
whose two inputs both reference tx A, index 0, with signatures the verifier
accepts; two outputs summing to 20) the result carries DOUBLE_SPENDING exactly
once, for the second occurrence, and no AMOUNT_MISMATCH, because each
occurrence of the duplicated input adds the UTXO amount to the input total,
which therefore equals the output total 20. -/
theorem c2_amended (verify : String → String → String → Bool) (transaction : Transaction)
    (i1 i2 : TransactionInput) (o1 o2 : TransactionOutput)
    (hin : transaction.inputs = [i1, i2])
    (hout : transaction.outputs = [o1, o2])
    (h1 : i1.utxoId = UTXOId.mk "A" 0) (h2 : i2.utxoId = UTXOId.mk "A" 0)
    (hs1 : verify (createTransactionDataForSigning_ transaction) i1.signature i1.owner = true)
    (hs2 : verify (createTransactionDataForSigning_ transaction) i2.signature i2.owner = true)
    (hsum : o1.amount + o2.amount = 20) :
    ((validateTransaction verify cPoolA transaction).errors.filter
        (fun e => e.kind == VALIDATION_ERRORS.DOUBLE_SPENDING)) = [doubleSpendingError i2]
    ∧ VALIDATION_ERRORS.AMOUNT_MISMATCH ∉
        (validateTransaction verify cPoolA transaction).errors.map ValidationError.kind := by
  have hget1 : getUTXO cPoolA i1.utxoId.txId i1.utxoId.outputIndex
      = some (UTXO.mk "A" 0 "K" 10) := by
    rw [h1]
    decide
  have hget2 : getUTXO cPoolA i2.utxoId.txId i2.utxoId.outputIndex
      = some (UTXO.mk "A" 0 "K" 10) := by
    rw [h2]
    decide
  have hpi : processInputs verify cPoolA (createTransactionDataForSigning_ transaction)
      transaction.inputs = (20, []) := by
    rw [hin]
    simp only [processInputs, hget1, hget2, hs1, hs2, if_true]
    norm_num
  have htotO : sumOutputAmounts transaction.outputs = 20 := by
    rw [hout]
    simp only [sumOutputAmounts]
    omega
  have herr : (validateTransaction verify cPoolA transaction).errors
      = doubleSpendErrors [i1, i2] [] ++ negativeAmountErrors [o1, o2] := by
    rw [validateTransaction_errors, hpi, htotO, hin, hout]
    simp
  have hkey : utxoKey i2 = utxoKey i1 := by
    rw [utxoKey, utxoKey, h1, h2]
  have hds : doubleSpendErrors [i1, i2] [] = [doubleSpendingError i2] := by
    simp only [doubleSpendErrors]
    rw [if_neg (List.not_mem_nil _), List.nil_append, if_pos (by simp [hkey])]
    simp
  constructor
  · rw [herr, hds, List.filter_append]
    have hneg : (negativeAmountErrors [o1, o2]).filter
        (fun e => e.kind == VALIDATION_ERRORS.DOUBLE_SPENDING) = [] := by
      rw [List.filter_eq_nil_iff]
      intro e he
      simp [kind_of_mem_negativeAmountErrors _ _ he]
    rw [hneg]
    simp [doubleSpendingError, createValidationError]
  · rw [herr, hds]
    intro hmem
    obtain ⟨e, he, hk⟩ := List.mem_map.mp hmem
    rcases List.mem_append.mp he with h | h
    · rw [show e = doubleSpendingError i2 by simpa using h] at hk
      simp [doubleSpendingError, createValidationError] at hk
    · rw [kind_of_mem_negativeAmountErrors _ _ h] at hk
      exact absurd hk (by decide)

/-- C2 witness: the amended scenario instantiated at the concrete transaction
cTxC2 against the pool cPoolA. -/
theorem c2_witness :
    ((validateTransaction cVerify cPoolA cTxC2).errors.filter
        (fun e => e.kind == VALIDATION_ERRORS.DOUBLE_SPENDING)) = [doubleSpendingError cInput2]
    ∧ VALIDATION_ERRORS.AMOUNT_MISMATCH ∉
        (validateTransaction cVerify cPoolA cTxC2).errors.map ValidationError.kind :=
  c2_amended cVerify cTxC2 cInput1 cInput2 (TransactionOutput.mk "R1" 12)
    (TransactionOutput.mk "R2" 8) rfl rfl rfl rfl rfl rfl (by decide)

theorem containsSubstr_jsonString (s : String) :
    ContainsSubstr (jsonString s) (jsonEscape s) := by
  simp only [jsonString]
  exact containsSubstr_append_left _ _ _ (containsSubstr_append_right _ _ _
    (containsSubstr_refl _))

theorem escapeChar_eq_self (c : Char) (hq : c ≠ '"') (hb : c ≠ '\\') (hc : 32 ≤ c.toNat) :
    escapeChar c = [c] := by
  have ht : c ≠ '\t' := by
    intro h
    rw [h] at hc
    exact absurd hc (by decide)
  have hn : c ≠ '\n' := by
    intro h
    rw [h] at hc
    exact absurd hc (by decide)
  have h8 : ¬ c.toNat = 8 := by omega
  have h12 : ¬ c.toNat = 12 := by omega
  have h13 : ¬ c.toNat = 13 := by omega
  have hlt : ¬ c.toNat < 32 := by omega
  simp only [escapeChar, if_neg hq, if_neg hb, if_neg h8, if_neg ht, if_neg hn, if_neg h12,
    if_neg h13, if_neg hlt]

theorem jsonEscape_eq_self (s : String) (h : PlainString s) : jsonEscape s = s := by
  have hl : ∀ l : List Char, (∀ c ∈ l, c ≠ '"' ∧ c ≠ '\\' ∧ 32 ≤ c.toNat) →
      escapeList l = l := by
    intro l hall
    induction l with
    | nil => rfl
    | cons c cs ih =>
      have hc := hall c (List.mem_cons_self _ _)
      simp only [escapeList, escapeChar_eq_self c hc.1 hc.2.1 hc.2.2,
        ih (fun x hx => hall x (List.mem_cons_of_mem _ hx))]
      rfl
  cases s with
  | mk data =>
    simp only [jsonEscape]
    exact congrArg String.mk (hl data h)

theorem joinComma_cons_cons (y z : String) (more : List String) :
    joinComma (y :: z :: more) = y ++ "," ++ joinComma (z :: more) := rfl

theorem containsSubstr_joinComma (l : List String) (x : String) (h : x ∈ l) :
    ContainsSubstr (joinComma l) x := by
  induction l with
  | nil => simp at h
  | cons y rest ih =>
    cases rest with
    | nil =>
      have hxy : x = y := by simpa using h
      rw [hxy]
      exact containsSubstr_refl y
    | cons z more =>
      rw [joinComma_cons_cons]
      rcases List.mem_cons.mp h with h1 | h1
      · rw [h1]
        exact containsSubstr_append_left _ _ _ (containsSubstr_append_left _ _ _
          (containsSubstr_refl _))
      · exact containsSubstr_append_right _ _ _ (ih h1)

theorem inputJson_contains_owner (input : TransactionInput) :
    ContainsSubstr (inputJsonForSigning input) (jsonEscape input.owner) := by
  simp only [inputJsonForSigning]
  exact containsSubstr_append_left _ _ _ (containsSubstr_append_right _ _ _
    (containsSubstr_jsonString _))

theorem inputJson_contains_txId (input : TransactionInput) :
    ContainsSubstr (inputJsonForSigning input) (jsonEscape input.utxoId.txId) := by
  simp only [inputJsonForSigning]
  exact containsSubstr_append_left _ _ _ (containsSubstr_append_left _ _ _
    (containsSubstr_append_left _ _ _ (containsSubstr_append_left _ _ _
      (containsSubstr_append_left _ _ _ (containsSubstr_append_right _ _ _
        (containsSubstr_jsonString _))))))

theorem inputJson_contains_outputIndex (input : TransactionInput) :
    ContainsSubstr (inputJsonForSigning input) (toString input.utxoId.outputIndex) := by
  simp only [inputJsonForSigning]
  exact containsSubstr_append_left _ _ _ (containsSubstr_append_left _ _ _
    (containsSubstr_append_left _ _ _ (containsSubstr_append_right _ _ _
      (containsSubstr_refl _))))

theorem outputJson_contains_recipient (output : TransactionOutput) :
    ContainsSubstr (outputJson output) (jsonEscape output.recipient) := by
  simp only [outputJson]
  exact containsSubstr_append_left _ _ _ (containsSubstr_append_left _ _ _
    (containsSubstr_append_left _ _ _ (containsSubstr_append_right _ _ _
      (containsSubstr_jsonString _))))

theorem outputJson_contains_amount (output : TransactionOutput) :
    ContainsSubstr (outputJson output) (toString output.amount) := by
  simp only [outputJson]
  exact containsSubstr_append_left _ _ _ (containsSubstr_append_right _ _ _
    (containsSubstr_refl _))

theorem payload_contains_id (transaction : Transaction) :
    ContainsSubstr (createTransactionDataForSigning_ transaction)
      (jsonEscape transaction.id) := by
  simp only [createTransactionDataForSigning_]
  exact containsSubstr_append_left _ _ _ (containsSubstr_append_left _ _ _
    (containsSubstr_append_left _ _ _ (containsSubstr_append_left _ _ _
      (containsSubstr_append_left _ _ _ (containsSubstr_append_left _ _ _
        (containsSubstr_append_left _ _ _ (containsSubstr_append_right _ _ _
          (containsSubstr_jsonString _))))))))

theorem payload_contains_timestamp (transaction : Transaction) :
    ContainsSubstr (createTransactionDataForSigning_ transaction)
      (toString transaction.timestamp) := by
  simp only [createTransactionDataForSigning_]
  exact containsSubstr_append_left _ _ _ (containsSubstr_append_right _ _ _
    (containsSubstr_refl _))

theorem payload_contains_inputChunk (transaction : Transaction) (input : TransactionInput)
    (h : input ∈ transaction.inputs) :
    ContainsSubstr (createTransactionDataForSigning_ transaction)
      (inputJsonForSigning input) := by
  simp only [createTransactionDataForSigning_]
  exact containsSubstr_append_left _ _ _ (containsSubstr_append_left _ _ _
    (containsSubstr_append_left _ _ _ (containsSubstr_append_left _ _ _
      (containsSubstr_append_left _ _ _ (containsSubstr_append_right _ _ _
        (containsSubstr_joinComma _ _ (List.mem_map_of_mem _ h)))))))

theorem payload_contains_outputChunk (transaction : Transaction) (output : TransactionOutput)
    (h : output ∈ transaction.outputs) :
    ContainsSubstr (createTransactionDataForSigning_ transaction) (outputJson output) := by
  simp only [createTransactionDataForSigning_]
  exact containsSubstr_append_left _ _ _ (containsSubstr_append_left _ _ _
    (containsSubstr_append_left _ _ _ (containsSubstr_append_right _ _ _
      (containsSubstr_joinComma _ _ (List.mem_map_of_mem _ h)))))

theorem createTransactionDataForSigning_congr (t1 t2 : Transaction)
    (h : signingFields t1 = signingFields t2) :
    createTransactionDataForSigning_ t1 = createTransactionDataForSigning_ t2 := by
  simp only [signingFields, Prod.mk.injEq] at h
  obtain ⟨hid, hinp, hout, hts⟩ := h
  have hmap : t1.inputs.map inputJsonForSigning = t2.inputs.map inputJsonForSigning := by
    have e1 : t1.inputs.map inputJsonForSigning
        = (t1.inputs.map (fun input => (input.utxoId, input.owner))).map inputJsonOfPair := by
      rw [List.map_map]
      rfl
    have e2 : t2.inputs.map inputJsonForSigning
        = (t2.inputs.map (fun input => (input.utxoId, input.owner))).map inputJsonOfPair := by
      rw [List.map_map]
      rfl
    rw [e1, e2, hinp]
  rw [createTransactionDataForSigning_, createTransactionDataForSigning_,
    hid, hmap, hout, hts]

/-- C8 counterexample: for the concrete transaction cTxC8q, whose id holds a
quote character, the signing payload carries the escaped form of the id and
does not contain the raw id as a substring, refuting the claimed raw
containment. -/
theorem c8_counterexample :
    ¬ ContainsSubstr (createTransactionDataForSigning_ cTxC8q) cTxC8q.id := by
  decide

/-- C8 (amended): the signing payload excludes every input signature — it is
a function of the id, the per-input owner and UTXO reference, the outputs and
the timestamp alone, so any two transactions equal in those fields yield an
identical payload — and it contains the JSON-escaped serialization of the id,
of each input's owner and referenced txId, and of each output's recipient
(the raw string itself whenever none of its characters needs a JSON escape),
together with each input's output index, each output's amount, and the
timestamp in decimal form. -/
theorem c8_signing_payload (transaction transaction2 : Transaction)
    (h : signingFields transaction = signingFields transaction2) :
    createTransactionDataForSigning_ transaction = createTransactionDataForSigning_ transaction2
    ∧ ContainsSubstr (createTransactionDataForSigning_ transaction)
        (jsonEscape transaction.id)
    ∧ (PlainString transaction.id →
        ContainsSubstr (createTransactionDataForSigning_ transaction) transaction.id)
    ∧ (∀ input ∈ transaction.inputs,
        ContainsSubstr (createTransactionDataForSigning_ transaction) (jsonEscape input.owner)
        ∧ (PlainString input.owner →
            ContainsSubstr (createTransactionDataForSigning_ transaction) input.owner)
        ∧ ContainsSubstr (createTransactionDataForSigning_ transaction)
            (jsonEscape input.utxoId.txId)
        ∧ (PlainString input.utxoId.txId →
            ContainsSubstr (createTransactionDataForSigning_ transaction) input.utxoId.txId)
        ∧ ContainsSubstr (createTransactionDataForSigning_ transaction)
            (toString input.utxoId.outputIndex))
    ∧ (∀ output ∈ transaction.outputs,
        ContainsSubstr (createTransactionDataForSigning_ transaction)
          (jsonEscape output.recipient)
        ∧ (PlainString output.recipient →
            ContainsSubstr (createTransactionDataForSigning_ transaction) output.recipient)
        ∧ ContainsSubstr (createTransactionDataForSigning_ transaction)
            (toString output.amount))
    ∧ ContainsSubstr (createTransactionDataForSigning_ transaction)
        (toString transaction.timestamp) := by
  refine ⟨createTransactionDataForSigning_congr _ _ h, payload_contains_id _, ?_, ?_, ?_,
    payload_contains_timestamp _⟩
  · intro hp
    have h0 := payload_contains_id transaction
    rwa [jsonEscape_eq_self _ hp] at h0
  · intro input hmem
    have hchunk := payload_contains_inputChunk transaction input hmem
    have howner := containsSubstr_trans _ _ _ hchunk (inputJson_contains_owner input)
    have htx := containsSubstr_trans _ _ _ hchunk (inputJson_contains_txId input)
    refine ⟨howner, ?_, htx, ?_,
      containsSubstr_trans _ _ _ hchunk (inputJson_contains_outputIndex input)⟩
    · intro hp
      rwa [jsonEscape_eq_self _ hp] at howner
    · intro hp
      rwa [jsonEscape_eq_self _ hp] at htx
  · intro output hmem
    have hchunk := payload_contains_outputChunk transaction output hmem
    have hrec := containsSubstr_trans _ _ _ hchunk (outputJson_contains_recipient output)
    refine ⟨hrec, ?_, containsSubstr_trans _ _ _ hchunk (outputJson_contains_amount output)⟩
    intro hp
    rwa [jsonEscape_eq_self _ hp] at hrec

/-- C8 witness: the transactions cTxC2 and cTxC8 agree on all signing fields
and differ only in their input signatures; the theorem applies to them. -/
theorem c8_witness :
    createTransactionDataForSigning_ cTxC2 = createTransactionDataForSigning_ cTxC8
    ∧ ContainsSubstr (createTransactionDataForSigning_ cTxC2) (jsonEscape cTxC2.id)
    ∧ (PlainString cTxC2.id →
        ContainsSubstr (createTransactionDataForSigning_ cTxC2) cTxC2.id)
    ∧ (∀ input ∈ cTxC2.inputs,
        ContainsSubstr (createTransactionDataForSigning_ cTxC2) (jsonEscape input.owner)
        ∧ (PlainString input.owner →
            ContainsSubstr (createTransactionDataForSigning_ cTxC2) input.owner)
        ∧ ContainsSubstr (createTransactionDataForSigning_ cTxC2)
            (jsonEscape input.utxoId.txId)
        ∧ (PlainString input.utxoId.txId →
            ContainsSubstr (createTransactionDataForSigning_ cTxC2) input.utxoId.txId)
        ∧ ContainsSubstr (createTransactionDataForSigning_ cTxC2)
            (toString input.utxoId.outputIndex))
    ∧ (∀ output ∈ cTxC2.outputs,
        ContainsSubstr (createTransactionDataForSigning_ cTxC2) (jsonEscape output.recipient)
        ∧ (PlainString output.recipient →
            ContainsSubstr (createTransactionDataForSigning_ cTxC2) output.recipient)
        ∧ ContainsSubstr (createTransactionDataForSigning_ cTxC2) (toString output.amount))
    ∧ ContainsSubstr (createTransactionDataForSigning_ cTxC2) (toString cTxC2.timestamp) :=
  c8_signing_payload cTxC2 cTxC8 rfl

theorem processInputsSt_spec (verify : String → String → String → Bool)
    (transactionData : String) (l : List TransactionInput) (utxoPool : List UTXO) :
    processInputsSt verify transactionData l utxoPool
      = ((processInputs verify utxoPool transactionData l).1,
         (processInputs verify utxoPool transactionData l).2, utxoPool) := by
  induction l with
  | nil => rfl
  | cons input rest ih =>
    simp only [processInputsSt, processInputs, getUTXOSt]
    split
    · simp [ih]
    · simp [ih]

/-- C9: the validator writes nothing to the pool (the threaded pool state
comes back unchanged), a second run of the validator on the pool returned by
the first run yields the identical result, and the state-passing run agrees
with the pure validator. -/
theorem c9_idempotent_and_pure (verify : String → String → String → Bool)
    (utxoPool : List UTXO) (transaction : Transaction) :
    (validateTransactionSt verify utxoPool transaction).2 = utxoPool
    ∧ validateTransactionSt verify ((validateTransactionSt verify utxoPool transaction).2)
        transaction = validateTransactionSt verify utxoPool transaction
    ∧ (validateTransactionSt verify utxoPool transaction).1
        = validateTransaction verify utxoPool transaction := by
  have hpool : (validateTransactionSt verify utxoPool transaction).2 = utxoPool := by
    simp [validateTransactionSt, processInputsSt_spec]
  refine ⟨hpool, by rw [hpool], ?_⟩
  simp [validateTransactionSt, validateTransaction, processInputsSt_spec]

/-- C10 counterexample: on the concrete transaction cTxC2 against the pool
cPoolA the main validator rejects with a DOUBLE_SPENDING error while the
variant accepts with an empty error list, so the two validators do not return
equal results. -/
theorem c10_counterexample :
    (validateTransaction cVerify cPoolA cTxC2).valid = false
    ∧ (validateTransactionVariant cVerify cPoolA cTxC2).valid = true
    ∧ validateTransaction cVerify cPoolA cTxC2
        ≠ validateTransactionVariant cVerify cPoolA cTxC2 := by
  decide

/-- C10 (amended): the variant validator omits exactly the duplicate-reference
check and the output scan: its error list equals the main validator's error
list with all DOUBLE_SPENDING and NEGATIVE_AMOUNT entries removed, and its
verdict is valid exactly when that filtered list is empty. -/
theorem c10_amended (verify : String → String → String → Bool)
    (utxoPool : List UTXO) (transaction : Transaction) :
    (validateTransactionVariant verify utxoPool transaction).errors
      = (validateTransaction verify utxoPool transaction).errors.filter
          (fun e => !(e.kind == VALIDATION_ERRORS.DOUBLE_SPENDING)
              && !(e.kind == VALIDATION_ERRORS.NEGATIVE_AMOUNT))
    ∧ ((validateTransactionVariant verify utxoPool transaction).valid = true ↔
        (validateTransaction verify utxoPool transaction).errors.filter
          (fun e => !(e.kind == VALIDATION_ERRORS.DOUBLE_SPENDING)
              && !(e.kind == VALIDATION_ERRORS.NEGATIVE_AMOUNT)) = []) := by
  have hfil : (validateTransaction verify utxoPool transaction).errors.filter
      (fun e => !(e.kind == VALIDATION_ERRORS.DOUBLE_SPENDING)
          && !(e.kind == VALIDATION_ERRORS.NEGATIVE_AMOUNT))
      = (validateTransactionVariant verify utxoPool transaction).errors := by
    rw [validateTransaction_errors, validateTransactionVariant_errors]
    rw [List.filter_append, List.filter_append, List.filter_append, List.filter_append,
      List.filter_append]
    rw [filter_if_singleton_of_pos _ _ (by decide), filter_if_singleton_of_pos _ _ (by decide)]
    have hds : (doubleSpendErrors transaction.inputs []).filter
        (fun e => !(e.kind == VALIDATION_ERRORS.DOUBLE_SPENDING)
            && !(e.kind == VALIDATION_ERRORS.NEGATIVE_AMOUNT)) = [] := by
      rw [List.filter_eq_nil_iff]
      intro e he
      simp [kind_of_mem_doubleSpendErrors _ _ _ he]
    have hpi : (processInputs verify utxoPool (createTransactionDataForSigning_ transaction)
        transaction.inputs).2.filter
        (fun e => !(e.kind == VALIDATION_ERRORS.DOUBLE_SPENDING)
            && !(e.kind == VALIDATION_ERRORS.NEGATIVE_AMOUNT))
        = (processInputs verify utxoPool (createTransactionDataForSigning_ transaction)
            transaction.inputs).2 := by
      rw [List.filter_eq_self]
      intro e he
      rcases kind_of_mem_processInputs _ _ _ _ _ he with h | h
      · simp [h]
      · simp [h]
    have hmm := filter_if_singleton_of_pos (c :=
        (processInputs verify utxoPool (createTransactionDataForSigning_ transaction)
            transaction.inputs).1 ≠ sumOutputAmounts transaction.outputs)
      (amountMismatchError
        (processInputs verify utxoPool (createTransactionDataForSigning_ transaction)
          transaction.inputs).1 (sumOutputAmounts transaction.outputs))
      (fun e => !(e.kind == VALIDATION_ERRORS.DOUBLE_SPENDING)
          && !(e.kind == VALIDATION_ERRORS.NEGATIVE_AMOUNT))
      (by simp [amountMismatchError, createValidationError])
    have hneg : (negativeAmountErrors transaction.outputs).filter
        (fun e => !(e.kind == VALIDATION_ERRORS.DOUBLE_SPENDING)
            && !(e.kind == VALIDATION_ERRORS.NEGATIVE_AMOUNT)) = [] := by
      rw [List.filter_eq_nil_iff]
      intro e he
      simp [kind_of_mem_negativeAmountErrors _ _ he]
    rw [hds, hpi, hmm, hneg]
    simp
  refine ⟨hfil.symm, ?_⟩
  rw [hfil, validateTransactionVariant_valid]
  simp [List.length_eq_zero]

end UTXOValidator
